import Mathlib

/-!
Verification of the file-system backend of `dabble` (src/dabble/backends/fs.py),
a line-oriented append-only storage engine for A/B test results.

Shallow embedding: each `.dabble` log file is modelled as `Option (List Line)`
(`none` = the file does not exist), where a `Line` is the parse result of one
physical line: `some record` for a well-formed JSON object line, `none` for a
malformed line.  The external `json` module's round trip (`json.dumps` then
`json.loads`) is modelled as the identity on records, so `append_line` appends
the record itself.  Records are flat string-keyed mappings of primitive or
sequence-of-primitive values, matching the values this program reads and
writes; Python's numeric cross-type equalities (e.g. `True == 1`) are not
modelled, fields carry their proper types.  Exceptions are modelled by
`Except Err`: `Exception` messages raised by the backend become `Err.conflict`
/ `Err.notFound` with the source's message text, and Python `KeyError` /
`IndexError` / `TypeError` become the corresponding `Err` constructors.
-/

namespace Dabble

/-- A primitive JSON value as used by the backend: string, integer, boolean. -/
inductive JPrim where
  | str (s : String)
  | int (n : Int)
  | bool (b : Bool)
  deriving DecidableEq, Repr

/-- A JSON value stored in a record field: a primitive or a flat sequence of
primitives (the `alternatives` list of a test definition). -/
inductive JValue where
  | prim (p : JPrim)
  | arr (xs : List JPrim)
  deriving DecidableEq, Repr

/-- Shorthand for a string value. -/
def JStr (s : String) : JValue := JValue.prim (JPrim.str s)

/-- Shorthand for an integer value. -/
def JInt (n : Int) : JValue := JValue.prim (JPrim.int n)

/-- Shorthand for a boolean value. -/
def JBool (b : Bool) : JValue := JValue.prim (JPrim.bool b)

/-- A parsed record (Python dict from `json.loads`): an association list of
string keys to values.  Keys are unique in any dict the program produces;
lookup takes the first occurrence, matching dict semantics. -/
abbrev Record := List (String × JValue)

/-- Dictionary lookup: `data[key]` / `key in data` combined, as an `Option`. -/
def dget : Record → String → Option JValue
  | [], _ => none
  | (k, v) :: rest, key => if k = key then some v else dget rest key

/-- One physical line of a log file, as seen by the scanner: `some data` when
`json.loads` succeeds, `none` when the line fails to parse. -/
abbrev Line := Option Record

/-- A log file: `none` when the file does not exist on disk. -/
abbrev LogFile := Option (List Line)

/-- One conjunct of the `matches` accumulator of `find_lines`:
`key in data and data[key] == value`. -/
def patKey (data : Record) (kv : String × JValue) : Bool :=
  match dget data kv.1 with
  | none => false
  | some v => decide (v = kv.2)

/-- The `matches` accumulator loop of `find_lines`:
`matches = matches and key in data and data[key] == value` over all
`(key, value)` pairs of the pattern. -/
def matchesPattern (pattern : Record) (data : Record) : Bool :=
  pattern.foldl (fun m kv => m && patKey data kv) true

/-- The scanning loop of `find_lines` over the lines of an existing file:
skip lines that fail to parse, yield records matching the pattern, in file
order. -/
def findLinesAux (pattern : Record) : List Line → List Record
  | [] => []
  | none :: rest => findLinesAux pattern rest
  | some data :: rest =>
      if matchesPattern pattern data then data :: findLinesAux pattern rest
      else findLinesAux pattern rest

/-- `find_lines(filename, **pattern)`: all records in the file whose fields
include every pattern key with an equal value; empty when the file does not
exist. -/
def find_lines (file : LogFile) (pattern : Record) : List Record :=
  match file with
  | none => []
  | some lines => findLinesAux pattern lines

/-- `find_line(filename, **pattern)`: the first record yielded by
`find_lines`, or `None`. -/
def find_line (file : LogFile) (pattern : Record) : Option Record :=
  (find_lines file pattern).head?

/-- `append_line(filename, **line)`: append one serialized line at
end-of-file, creating the file if absent.  The json round trip is modelled as
the identity, so the appended line parses back to exactly the given record. -/
def append_line (file : LogFile) (line : Record) : LogFile :=
  some (file.getD [] ++ [some line])

/-- Errors raised by the backend.  `conflict` and `notFound` carry the
message text of the `Exception` raised in the source; `keyError`,
`indexError` and `typeError` model the built-in Python exceptions that
escape `save_test` / `set_alternative` / `ab_report` on ill-shaped records. -/
inductive Err where
  | conflict (msg : String)
  | notFound (msg : String)
  | keyError (key : String)
  | indexError
  | typeError
  deriving DecidableEq, Repr

/-- The persistent state of `FSResultStorage`: the three log files
`tests.dabble`, `results.dabble`, `alts.dabble`. -/
structure FSState where
  tests : LogFile
  results : LogFile
  alts : LogFile
  deriving DecidableEq, Repr

/-- The record appended by `save_test`: `t=test_name, a=alternatives`. -/
def testRecord (test_name : String) (alternatives : JValue) : Record :=
  [("t", JStr test_name), ("a", alternatives)]

/-- The record appended by `set_alternative`:
`i=identity, t=test_name, n=alternative`. -/
def altRecord (identity test_name : String) (alternative : JValue) : Record :=
  [("i", JStr identity), ("t", JStr test_name), ("n", alternative)]

/-- The record appended by `record`:
`i=identity, t=test_name, n=alternative, a=action, c=completed`. -/
def resultRecord (identity test_name : String) (alternative : JValue)
    (action : String) (completed : Bool) : Record :=
  [("i", JStr identity), ("t", JStr test_name), ("n", alternative),
   ("a", JStr action), ("c", JBool completed)]

/-- `save_test`: look up the first test record with this name; a record with
a different `a` value raises the conflict `Exception`; otherwise append.
The Python guard is `if existing and existing['a'] != alternatives`, so a
falsy (empty) dict skips to the append and a matching dict without key `a`
raises `KeyError`. -/
def save_test (s : FSState) (test_name : String) (alternatives : JValue) :
    Except Err FSState :=
  let appended : Except Err FSState :=
    Except.ok { s with tests := append_line s.tests (testRecord test_name alternatives) }
  match find_line s.tests [("t", JStr test_name)] with
  | none => appended
  | some existing =>
      if existing.isEmpty then appended
      else
        match dget existing "a" with
        | none => Except.error (Err.keyError "a")
        | some v =>
            if v = alternatives then appended
            else Except.error (Err.conflict
              ("test \"" ++ test_name ++ "\" already exists with different alternatives"))

/-- `record`: unconditional append of a result event. -/
def record (s : FSState) (identity test_name : String) (alternative : JValue)
    (action : String) (completed : Bool) : FSState :=
  { s with results :=
      append_line s.results (resultRecord identity test_name alternative action completed) }

/-- `is_completed`: whether a record matching
`i=identity, t=test_name, n=alternative, c=True` exists. -/
def is_completed (s : FSState) (identity test_name : String)
    (alternative : JValue) : Bool :=
  (find_line s.results
    [("i", JStr identity), ("t", JStr test_name), ("n", alternative),
     ("c", JBool true)]).isSome

/-- `set_alternative`: look up the first assignment for
`(identity, test_name)`; a record with a different `n` raises the conflict
`Exception`; otherwise append.  Guard shape as in `save_test`. -/
def set_alternative (s : FSState) (identity test_name : String)
    (alternative : JValue) : Except Err FSState :=
  let appended : Except Err FSState :=
    Except.ok { s with alts := append_line s.alts (altRecord identity test_name alternative) }
  match find_line s.alts [("i", JStr identity), ("t", JStr test_name)] with
  | none => appended
  | some existing =>
      if existing.isEmpty then appended
      else
        match dget existing "n" with
        | none => Except.error (Err.keyError "n")
        | some v =>
            if v = alternative then appended
            else Except.error (Err.conflict
              ("different alternative already set for identity " ++ identity))

/-- `get_alternative`: `(find_line(...) or {}).get('n')` — the `n` field of
the first matching assignment record, or `None`. -/
def get_alternative (s : FSState) (identity test_name : String) : Option JValue :=
  match find_line s.alts [("i", JStr identity), ("t", JStr test_name)] with
  | none => none
  | some existing => dget existing "n"

/-- The pair of identity sets kept per alternative inside `ab_report`'s loop:
`{'attempted': set(), 'completed': set()}`. -/
structure AltSets where
  attempted : Finset JValue
  completed : Finset JValue

/-- One entry of the returned report after the sets are replaced by their
sizes: `{'attempted': len(...), 'completed': len(...)}`. -/
structure AltCount where
  attempted : Nat
  completed : Nat
  deriving DecidableEq, Repr

/-- The value returned by `ab_report`. -/
structure Report where
  test_name : String
  alternatives : List JPrim
  results : List AltCount
  deriving DecidableEq, Repr

/-- Python's view of a value used as a list index: `int` is used as is, and
`bool` is an `int` subtype (`True` indexes as `1`); anything else raises
`TypeError`. -/
def asIndex : JValue → Option Int
  | JValue.prim (JPrim.int n) => some n
  | JValue.prim (JPrim.bool b) => some (if b then 1 else 0)
  | _ => none

/-- Python list indexing on a list of the given length: a negative index `n`
counts from the end (`n + len`); an index outside `[-len, len)` raises
`IndexError`. -/
def pyIndex (len : Nat) (n : Int) : Option Nat :=
  let m : Int := if n < 0 then n + len else n
  if 0 ≤ m ∧ m < (len : Int) then some m.toNat else none

/-- Replace the element at an index by applying `f`, leaving the list
unchanged when the index is out of bounds (the callers below only use it in
bounds). -/
def modifyAt {α : Type} : List α → Nat → (α → α) → List α
  | [], _, _ => []
  | x :: xs, 0, f => f x :: xs
  | x :: xs, n + 1, f => x :: modifyAt xs n f

/-- `result['attempted'].add(data['i'])` on the alternative at `idx`. -/
def addAttempted (results : List AltSets) (idx : Nat) (iv : JValue) : List AltSets :=
  modifyAt results idx (fun r => { r with attempted := insert iv r.attempted })

/-- `result['completed'].add(data['i'])` on the alternative at `idx`. -/
def addCompleted (results : List AltSets) (idx : Nat) (iv : JValue) : List AltSets :=
  modifyAt results idx (fun r => { r with completed := insert iv r.completed })

/-- The body of `ab_report`'s loop for one scanned event `data`:
`result = out['results'][data['n']]`, then the `if`/`elif` on `data['a']`,
with Python's evaluation order of the lookups. -/
def abStep (a b : String) (results : List AltSets) (data : Record) :
    Except Err (List AltSets) :=
  match dget data "n" with
  | none => Except.error (Err.keyError "n")
  | some nv =>
      match asIndex nv with
      | none => Except.error Err.typeError
      | some n =>
          match pyIndex results.length n with
          | none => Except.error Err.indexError
          | some idx =>
              match dget data "a" with
              | none => Except.error (Err.keyError "a")
              | some av =>
                  if av = JStr a then
                    match dget data "i" with
                    | none => Except.error (Err.keyError "i")
                    | some iv => Except.ok (addAttempted results idx iv)
                  else if av = JStr b then
                    match dget data "i" with
                    | none => Except.error (Err.keyError "i")
                    | some iv =>
                        Except.ok
                          (if iv ∈ (results.getD idx ⟨∅, ∅⟩).attempted then
                            addCompleted results idx iv
                          else results)
                  else Except.ok results

/-- `ab_report`'s loop over all scanned events, threading the per-alternative
sets and propagating the first raised exception. -/
def abLoop (a b : String) (st : List AltSets) : List Record → Except Err (List AltSets)
  | [] => Except.ok st
  | d :: rest =>
      match abStep a b st d with
      | Except.error e => Except.error e
      | Except.ok st' => abLoop a b st' rest

/-- `ab_report(test_name, a, b)`: look up the test definition (raising the
"unknown test" `Exception` when absent), build one empty `attempted` /
`completed` set pair per alternative, fold the loop body over all result
events for `test_name` in file order, and return the set sizes.  `test['a']`
missing raises `KeyError`; a non-sequence `test['a']` cannot be iterated
(`TypeError`). -/
def ab_report (s : FSState) (test_name a b : String) : Except Err Report :=
  match find_line s.tests [("t", JStr test_name)] with
  | none => Except.error (Err.notFound ("unknown test \"" ++ test_name ++ "\""))
  | some test =>
      match dget test "a" with
      | none => Except.error (Err.keyError "a")
      | some (JValue.prim _) => Except.error Err.typeError
      | some (JValue.arr alts) =>
          match abLoop a b (alts.map fun _ => ⟨∅, ∅⟩)
              (find_lines s.results [("t", JStr test_name)]) with
          | Except.error e => Except.error e
          | Except.ok final =>
              Except.ok
                { test_name := test_name
                  alternatives := alts
                  results := final.map fun r => ⟨r.attempted.card, r.completed.card⟩ }

/-- A well-typed result event, as produced by a call to `record` with a
string identity, a non-negative integer alternative index and a string
action. -/
structure SpecEvent where
  identity : String
  test_name : String
  alternative : Nat
  action : String
  completed : Bool
  deriving DecidableEq, Repr

/-- The record that `record e.identity e.test_name e.alternative e.action
e.completed` appends to the results log. -/
def eventRecord (e : SpecEvent) : Record :=
  resultRecord e.identity e.test_name (JInt e.alternative) e.action e.completed

/-- Strings embed injectively into `JValue`, so identity sets can be tracked
as sets of strings on the specification side. -/
def strEmb : String ↪ JValue :=
  ⟨JStr, fun a b h => by simpa [JStr] using h⟩

/-- Transport a specification-side pair (attempted, completed) of identity
sets to the code-side `AltSets`. -/
def toAltSets (p : Finset String × Finset String) : AltSets :=
  ⟨p.1.map strEmb, p.2.map strEmb⟩

/-- Follows the spec's words: one step of the funnel aggregation.  "if
`action == action_a`, add `identity` to that alternative's `attempted` set.
Else if `action == action_b` and `identity` is already in that alternative's
`attempted` set, add it to `completed`." -/
def specStep (aA aB : String) (st : List (Finset String × Finset String))
    (e : SpecEvent) : List (Finset String × Finset String) :=
  if e.action = aA then
    modifyAt st e.alternative (fun p => (insert e.identity p.1, p.2))
  else if e.action = aB ∧ e.identity ∈ (st.getD e.alternative (∅, ∅)).1 then
    modifyAt st e.alternative (fun p => (p.1, insert e.identity p.2))
  else st

/-- Follows the spec's words: scan the events in order, starting from one
empty (attempted, completed) pair per alternative. -/
def specFunnel (aA aB : String) (numAlts : Nat) (events : List SpecEvent) :
    List (Finset String × Finset String) :=
  events.foldl (specStep aA aB) (List.replicate numAlts (∅, ∅))

/-! Concrete states used by the example scenarios of the spec. -/

/-- The alternatives list `[a, b]`. -/
def altsAB : JValue := JValue.arr [JPrim.str "a", JPrim.str "b"]

/-- The alternatives list `[a, c]`. -/
def altsAC : JValue := JValue.arr [JPrim.str "a", JPrim.str "c"]

/-- Fresh storage: none of the three files exists yet. -/
def emptyState : FSState := ⟨none, none, none⟩

/-- The state after `save_test("x", [a, b])` on fresh storage. -/
def oneTestState : FSState :=
  { emptyState with tests := append_line none (testRecord "x" altsAB) }

/-- The state after `set_alternative("u1", "x", 0)` on fresh storage. -/
def oneAltState : FSState :=
  { emptyState with alts := append_line none (altRecord "u1" "x" (JInt 0)) }

/-- The alternatives list `[A, B]` of the funnel scenario. -/
def exAlts : List JPrim := [JPrim.str "A", JPrim.str "B"]

/-- A tests log defining test `x` with alternatives `[A, B]`. -/
def exTestsFile : LogFile := some [some (testRecord "x" (JValue.arr exAlts))]

/-- The four events of the spec's funnel counting scenario, in order. -/
def exEvents : List SpecEvent :=
  [⟨"u1", "x", 0, "shown", false⟩, ⟨"u1", "x", 0, "converted", false⟩,
   ⟨"u2", "x", 0, "converted", false⟩, ⟨"u3", "x", 1, "shown", false⟩]

/-- The state of the funnel counting scenario. -/
def exFunnelState : FSState :=
  ⟨exTestsFile, some (exEvents.map fun e => some (eventRecord e)), none⟩

/-- A result event for test `x` whose alternative index is `-1`. -/
def negEventRecord : Record :=
  [("t", JStr "x"), ("n", JInt (-1)), ("a", JStr "shown"), ("i", JStr "u1")]

/-- Test `x` with two alternatives and one event with index `-1`. -/
def negIndexState : FSState := ⟨exTestsFile, some [some negEventRecord], none⟩

/-- A result event for test `x` whose alternative index is `5`. -/
def bigIndexRecord : Record := [("t", JStr "x"), ("n", JInt 5)]

/-- Test `x` with two alternatives and one event with index `5`. -/
def bigIndexState : FSState := ⟨exTestsFile, some [some bigIndexRecord], none⟩

/-! Lemmas about the query primitives. -/

theorem patKey_eq_true_iff (data : Record) (kv : String × JValue) :
    patKey data kv = true ↔ dget data kv.1 = some kv.2 := by
  unfold patKey
  cases h : dget data kv.1 <;> simp [h]

theorem foldl_and {α : Type} (f : α → Bool) (l : List α) :
    ∀ init : Bool, l.foldl (fun m x => m && f x) init = (init && l.all f) := by
  induction l with
  | nil => intro init; simp
  | cons x xs ih => intro init; simp [List.all_cons, ih, Bool.and_assoc]

theorem matchesPattern_eq_all (p data : Record) :
    matchesPattern p data = p.all (patKey data) := by
  unfold matchesPattern
  rw [foldl_and]
  simp

theorem matchesPattern_iff (p data : Record) :
    matchesPattern p data = true ↔ ∀ kv ∈ p, dget data kv.1 = some kv.2 := by
  rw [matchesPattern_eq_all]
  simp [List.all_eq_true, patKey_eq_true_iff]

theorem findLinesAux_append (p : Record) (l1 l2 : List Line) :
    findLinesAux p (l1 ++ l2) = findLinesAux p l1 ++ findLinesAux p l2 := by
  induction l1 with
  | nil => simp [findLinesAux]
  | cons x xs ih =>
      cases x with
      | none => simpa [findLinesAux] using ih
      | some d =>
          simp only [List.cons_append, findLinesAux]
          split <;> simp [ih]

theorem findLinesAux_eq_filter (p : Record) (lines : List Line) :
    findLinesAux p lines = (lines.filterMap id).filter (fun r => matchesPattern p r) := by
  induction lines with
  | nil => rfl
  | cons x xs ih =>
      cases x with
      | none => simpa [findLinesAux, List.filterMap_cons] using ih
      | some d =>
          simp only [findLinesAux, List.filterMap_cons, id, List.filter_cons]
          split <;> simp_all

theorem mem_findLinesAux (p : Record) (lines : List Line) (r : Record) :
    r ∈ findLinesAux p lines ↔ some r ∈ lines ∧ matchesPattern p r = true := by
  rw [findLinesAux_eq_filter]
  simp [List.mem_filter, List.mem_filterMap]

theorem mem_find_lines (f : LogFile) (p : Record) (r : Record) :
    r ∈ find_lines f p ↔ some r ∈ f.getD [] ∧ matchesPattern p r = true := by
  cases f <;> simp [find_lines, mem_findLinesAux]

theorem find_line_isSome_iff (f : LogFile) (p : Record) :
    (find_line f p).isSome = true ↔ ∃ r, r ∈ find_lines f p := by
  unfold find_line
  cases h : find_lines f p <;> simp

/-- C6: `find_lines` yields exactly the records, in file order, whose fields
include every predicate key with an equal value (extra keys ignored);
unparseable lines are skipped; a non-existent file yields the empty
sequence; `find_line` is the first such record or the none sentinel. -/
theorem C6_find_lines_filter_semantics :
    (∀ (lines : List Line) (p : Record),
        find_lines (some lines) p =
          (lines.filterMap id).filter (fun r => matchesPattern p r)) ∧
    (∀ p data : Record,
        matchesPattern p data = true ↔ ∀ kv ∈ p, dget data kv.1 = some kv.2) ∧
    (∀ p : Record, find_lines none p = []) ∧
    (∀ (f : LogFile) (p : Record), find_line f p = (find_lines f p).head?) :=
  ⟨fun lines p => findLinesAux_eq_filter p lines,
   fun p data => matchesPattern_iff p data,
   fun _ => rfl,
   fun _ _ => rfl⟩

/-- C7: appending a record and then scanning yields exactly the records the
previous file state yielded, in the same order, followed by the appended
record itself (the append lands at end of file, and the serialized line
parses back to the record); this holds for every file state, including a
non-existent file. -/
theorem C7_append_scan_roundtrip (file : LogFile) (rec : Record) :
    find_lines (append_line file rec) [] = find_lines file [] ++ [rec] := by
  cases file with
  | none => simp [append_line, find_lines, findLinesAux, matchesPattern]
  | some lines =>
      simp [append_line, find_lines, findLinesAux_append, findLinesAux, matchesPattern]

/-- C4: `is_completed` is true iff at least one result event anywhere in the
results log matches the identity, test name and alternative and has
`completed = true`; existence over the entire stream, independent of
position. -/
theorem C4_is_completed_exists (s : FSState) (identity test_name : String)
    (alternative : JValue) :
    is_completed s identity test_name alternative = true ↔
      ∃ rec : Record, some rec ∈ s.results.getD [] ∧
        dget rec "i" = some (JStr identity) ∧
        dget rec "t" = some (JStr test_name) ∧
        dget rec "n" = some alternative ∧
        dget rec "c" = some (JBool true) := by
  unfold is_completed
  rw [find_line_isSome_iff]
  simp [mem_find_lines, matchesPattern_iff, List.forall_mem_cons]

/-- C5: `ab_report` on a test name with no test-definition record fails with
the not-found ("unknown test") error, which is distinct from the conflict
error; no state is produced. -/
theorem C5_ab_report_unknown_test (s : FSState) (test_name a b : String)
    (h : find_line s.tests [("t", JStr test_name)] = none) :
    ab_report s test_name a b =
      Except.error (Err.notFound ("unknown test \"" ++ test_name ++ "\"")) ∧
    (∀ m1 m2 : String, (Err.notFound m1 : Err) ≠ Err.conflict m2) := by
  constructor
  · unfold ab_report
    rw [h]
  · intro m1 m2 h'
    exact Err.noConfusion h'

/-- Witness for C5 at the spec's example: `ab_report("nosuch", "a", "b")` on
fresh storage fails with Not-found. -/
theorem C5_witness :
    ab_report emptyState "nosuch" "a" "b" =
      Except.error (Err.notFound "unknown test \"nosuch\"") :=
  (C5_ab_report_unknown_test emptyState "nosuch" "a" "b" rfl).1

/-- C2: `save_test` fails with the conflict error and appends nothing when
the first test record matching the name carries a different alternatives
value; otherwise (no record, or an equal alternatives value) it succeeds and
appends one new test-definition record, even when an identical record
already exists. -/
theorem C2_save_test_conflict_or_append (s : FSState) (test_name : String)
    (alternatives : JValue) :
    (∀ (r : Record) (v : JValue),
        find_line s.tests [("t", JStr test_name)] = some r →
        dget r "a" = some v → v ≠ alternatives →
        save_test s test_name alternatives =
          Except.error (Err.conflict
            ("test \"" ++ test_name ++ "\" already exists with different alternatives"))) ∧
    (find_line s.tests [("t", JStr test_name)] = none →
        save_test s test_name alternatives =
          Except.ok { s with tests := append_line s.tests (testRecord test_name alternatives) }) ∧
    (∀ r : Record,
        find_line s.tests [("t", JStr test_name)] = some r →
        dget r "a" = some alternatives →
        save_test s test_name alternatives =
          Except.ok { s with tests := append_line s.tests (testRecord test_name alternatives) }) := by
  refine ⟨?_, ?_, ?_⟩
  · intro r v hf hg hne
    have hr : r.isEmpty = false := by
      cases r with
      | nil => simp [dget] at hg
      | cons kv l => rfl
    simp [save_test, hf, hr, hg, hne]
  · intro hf
    simp [save_test, hf]
  · intro r hf hg
    have hr : r.isEmpty = false := by
      cases r with
      | nil => simp [dget] at hg
      | cons kv l => rfl
    simp [save_test, hf, hr, hg]

/-- Witness for C2 at the spec's example: registering `("x", [a, b])`
succeeds, re-registering the same list succeeds and appends again, and
registering `("x", [a, c])` afterwards fails with Conflict. -/
theorem C2_witness :
    save_test emptyState "x" altsAB = Except.ok oneTestState ∧
    save_test oneTestState "x" altsAC =
      Except.error (Err.conflict "test \"x\" already exists with different alternatives") ∧
    save_test oneTestState "x" altsAB =
      Except.ok { oneTestState with
                    tests := append_line oneTestState.tests (testRecord "x" altsAB) } :=
  ⟨(C2_save_test_conflict_or_append emptyState "x" altsAB).2.1 rfl,
   (C2_save_test_conflict_or_append oneTestState "x" altsAC).1
     (testRecord "x" altsAB) altsAB rfl rfl (by decide),
   (C2_save_test_conflict_or_append oneTestState "x" altsAB).2.2
     (testRecord "x" altsAB) rfl rfl⟩

/-- C3: `set_alternative` fails with the conflict error and appends nothing
when the first assignment record for `(identity, test_name)` holds a
different alternative, while re-setting the same alternative (or setting a
fresh one) succeeds and appends; `get_alternative` returns the alternative
of the first matching record, or the none sentinel when no record matches. -/
theorem C3_set_get_alternative (s : FSState) (identity test_name : String)
    (alternative : JValue) :
    (∀ (r : Record) (v : JValue),
        find_line s.alts [("i", JStr identity), ("t", JStr test_name)] = some r →
        dget r "n" = some v → v ≠ alternative →
        set_alternative s identity test_name alternative =
          Except.error (Err.conflict
            ("different alternative already set for identity " ++ identity))) ∧
    (find_line s.alts [("i", JStr identity), ("t", JStr test_name)] = none →
        set_alternative s identity test_name alternative =
          Except.ok { s with
                        alts := append_line s.alts (altRecord identity test_name alternative) }) ∧
    (∀ r : Record,
        find_line s.alts [("i", JStr identity), ("t", JStr test_name)] = some r →
        dget r "n" = some alternative →
        set_alternative s identity test_name alternative =
          Except.ok { s with
                        alts := append_line s.alts (altRecord identity test_name alternative) }) ∧
    (∀ (r : Record) (v : JValue),
        find_line s.alts [("i", JStr identity), ("t", JStr test_name)] = some r →
        dget r "n" = some v →
        get_alternative s identity test_name = some v) ∧
    (find_line s.alts [("i", JStr identity), ("t", JStr test_name)] = none →
        get_alternative s identity test_name = none) := by
  refine ⟨?_, ?_, ?_, ?_, ?_⟩
  · intro r v hf hg hne
    have hr : r.isEmpty = false := by
      cases r with
      | nil => simp [dget] at hg
      | cons kv l => rfl
    simp [set_alternative, hf, hr, hg, hne]
  · intro hf
    simp [set_alternative, hf]
  · intro r hf hg
    have hr : r.isEmpty = false := by
      cases r with
      | nil => simp [dget] at hg
      | cons kv l => rfl
    simp [set_alternative, hf, hr, hg]
  · intro r v hf hg
    simp [get_alternative, hf, hg]
  · intro hf
    simp [get_alternative, hf]

/-- Witness for C3 at the spec's example: `set_alternative("u1","x",0)`
succeeds, `set_alternative("u1","x",1)` then fails with Conflict, and
`get_alternative("u1","x")` returns `0`. -/
theorem C3_witness :
    set_alternative emptyState "u1" "x" (JInt 0) = Except.ok oneAltState ∧
    set_alternative oneAltState "u1" "x" (JInt 1) =
      Except.error (Err.conflict "different alternative already set for identity u1") ∧
    get_alternative oneAltState "u1" "x" = some (JInt 0) :=
  ⟨(C3_set_get_alternative emptyState "u1" "x" (JInt 0)).2.1 rfl,
   (C3_set_get_alternative oneAltState "u1" "x" (JInt 1)).1
     (altRecord "u1" "x" (JInt 0)) (JInt 0) rfl rfl (by decide),
   (C3_set_get_alternative oneAltState "u1" "x" (JInt 0)).2.2.2.1
     (altRecord "u1" "x" (JInt 0)) (JInt 0) rfl rfl⟩

/-- C10: each successful write operation appends exactly one line to exactly
one of the three log files and leaves the other two files unchanged;
`append_line` adds exactly one line at end of file.  The read operations
(`get_alternative`, `is_completed`, `ab_report`) are embedded as pure
functions of the state — their source performs no append — so they modify no
file. -/
theorem C10_frame :
    (∀ (s : FSState) (t : String) (al : JValue) (s' : FSState),
        save_test s t al = Except.ok s' →
        s' = { s with tests := append_line s.tests (testRecord t al) }) ∧
    (∀ (s : FSState) (i t : String) (al : JValue) (s' : FSState),
        set_alternative s i t al = Except.ok s' →
        s' = { s with alts := append_line s.alts (altRecord i t al) }) ∧
    (∀ (s : FSState) (i t : String) (al : JValue) (act : String) (c : Bool),
        record s i t al act c =
          { s with results := append_line s.results (resultRecord i t al act c) }) ∧
    (∀ (f : LogFile) (r : Record), (append_line f r).getD [] = f.getD [] ++ [some r]) := by
  refine ⟨?_, ?_, ?_, ?_⟩
  · intro s t al s' h
    dsimp only [save_test] at h
    split at h
    · exact (Except.ok.inj h).symm
    · split at h
      · exact (Except.ok.inj h).symm
      · split at h
        · exact Except.noConfusion h
        · split at h
          · exact (Except.ok.inj h).symm
          · exact Except.noConfusion h
  · intro s i t al s' h
    dsimp only [set_alternative] at h
    split at h
    · exact (Except.ok.inj h).symm
    · split at h
      · exact (Except.ok.inj h).symm
      · split at h
        · exact Except.noConfusion h
        · split at h
          · exact (Except.ok.inj h).symm
          · exact Except.noConfusion h
  · intro s i t al act c
    rfl
  · intro f r
    rfl

/-- Witness for C10: a successful `save_test` on fresh storage yields
exactly the one-line tests log, and `record` appends exactly one result
line, leaving the other files unchanged. -/
theorem C10_witness :
    oneTestState =
      { emptyState with tests := append_line emptyState.tests (testRecord "x" altsAB) } ∧
    record emptyState "u1" "x" (JInt 0) "shown" false =
      { emptyState with
          results := append_line emptyState.results (resultRecord "u1" "x" (JInt 0) "shown" false) } :=
  ⟨C10_frame.1 emptyState "x" altsAB oneTestState rfl,
   C10_frame.2.2.1 emptyState "u1" "x" (JInt 0) "shown" false⟩

/-! Lemmas for the report aggregation. -/

theorem dget_eventRecord_i (e : SpecEvent) :
    dget (eventRecord e) "i" = some (JStr e.identity) := rfl

theorem dget_eventRecord_t (e : SpecEvent) :
    dget (eventRecord e) "t" = some (JStr e.test_name) := rfl

theorem dget_eventRecord_n (e : SpecEvent) :
    dget (eventRecord e) "n" = some (JInt e.alternative) := rfl

theorem dget_eventRecord_a (e : SpecEvent) :
    dget (eventRecord e) "a" = some (JStr e.action) := rfl

theorem matches_eventRecord (T : String) (e : SpecEvent) :
    matchesPattern [("t", JStr T)] (eventRecord e) = decide (e.test_name = T) := by
  rw [matchesPattern_eq_all]
  simp [patKey, dget_eventRecord_t, JStr]

theorem findLinesAux_eventRecords (T : String) (evs : List SpecEvent) :
    findLinesAux [("t", JStr T)] (evs.map fun e => some (eventRecord e)) =
      (evs.filter fun e => decide (e.test_name = T)).map eventRecord := by
  induction evs with
  | nil => rfl
  | cons e es ih =>
      simp only [List.map_cons, findLinesAux, matches_eventRecord, List.filter_cons]
      by_cases h : e.test_name = T <;> simp [h, ih]

theorem modifyAt_length {α : Type} (f : α → α) (l : List α) :
    ∀ i : Nat, (modifyAt l i f).length = l.length := by
  induction l with
  | nil => intro i; rfl
  | cons x xs ih =>
      intro i
      cases i with
      | zero => rfl
      | succ n => simp [modifyAt, ih]

theorem map_modifyAt {α β : Type} (g : α → β) (f : α → α) (f' : β → β)
    (hcomm : ∀ x, f' (g x) = g (f x)) (l : List α) :
    ∀ i : Nat, modifyAt (l.map g) i f' = (modifyAt l i f).map g := by
  induction l with
  | nil => intro i; rfl
  | cons x xs ih =>
      intro i
      cases i with
      | zero => simp [modifyAt, hcomm]
      | succ n => simp [modifyAt, ih]

theorem map_modifyAt_invariant {α β : Type} (g : α → β) (f : α → α)
    (hinv : ∀ x, g (f x) = g x) (l : List α) :
    ∀ i : Nat, (modifyAt l i f).map g = l.map g := by
  induction l with
  | nil => intro i; rfl
  | cons x xs ih =>
      intro i
      cases i with
      | zero => simp [modifyAt, hinv]
      | succ n => simp [modifyAt, ih]

theorem getD_map {α β : Type} (g : α → β) (l : List α) :
    ∀ i : Nat, i < l.length → ∀ (d : β) (d' : α),
      (l.map g).getD i d = g (l.getD i d') := by
  induction l with
  | nil => intro i h; simp at h
  | cons x xs ih =>
      intro i h d d'
      cases i with
      | zero => rfl
      | succ n =>
          simp only [List.map_cons, List.getD_cons_succ]
          exact ih n (by simpa using h) d d'

theorem pyIndex_nat (len k : Nat) (h : k < len) : pyIndex len (k : Int) = some k := by
  have h1 : ¬((k : Int) < 0) := by omega
  simp only [pyIndex, if_neg h1]
  rw [if_pos (by constructor <;> omega)]
  simp only [Option.some.injEq]
  omega

theorem map_const_of_mem {α β : Type} (f : α → β) (c : β) (l : List α)
    (h : ∀ x ∈ l, f x = c) : l.map f = List.replicate l.length c := by
  induction l with
  | nil => rfl
  | cons x xs ih =>
      simp only [List.map_cons, List.length_cons, List.replicate_succ]
      exact congrArg₂ List.cons (h x (by simp)) (ih fun y hy => h y (by simp [hy]))

theorem mem_toAltSets_attempted (x : String) (p : Finset String × Finset String) :
    JStr x ∈ (toAltSets p).attempted ↔ x ∈ p.1 := by
  simp [toAltSets, strEmb, JStr]

theorem specStep_length (aA aB : String) (st : List (Finset String × Finset String))
    (e : SpecEvent) : (specStep aA aB st e).length = st.length := by
  unfold specStep
  split
  · exact modifyAt_length _ st _
  · split
    · exact modifyAt_length _ st _
    · rfl

theorem foldl_specStep_length (aA aB : String) (evs : List SpecEvent) :
    ∀ st : List (Finset String × Finset String),
      (evs.foldl (specStep aA aB) st).length = st.length := by
  induction evs with
  | nil => intro st; rfl
  | cons e es ih =>
      intro st
      rw [List.foldl_cons, ih, specStep_length]

theorem addAttempted_map (st : List (Finset String × Finset String)) (i : Nat) (x : String) :
    addAttempted (st.map toAltSets) i (JStr x) =
      (modifyAt st i fun p => (insert x p.1, p.2)).map toAltSets := by
  unfold addAttempted
  exact map_modifyAt toAltSets _ _
    (fun p => by simp [toAltSets, strEmb, JStr, Finset.map_insert]) st i

theorem addCompleted_map (st : List (Finset String × Finset String)) (i : Nat) (x : String) :
    addCompleted (st.map toAltSets) i (JStr x) =
      (modifyAt st i fun p => (p.1, insert x p.2)).map toAltSets := by
  unfold addCompleted
  exact map_modifyAt toAltSets _ _
    (fun p => by simp [toAltSets, strEmb, JStr, Finset.map_insert]) st i

theorem abStep_eventRecord (aA aB : String) (st : List (Finset String × Finset String))
    (e : SpecEvent) (h : e.alternative < st.length) :
    abStep aA aB (st.map toAltSets) (eventRecord e) =
      Except.ok ((specStep aA aB st e).map toAltSets) := by
  have hlen : (st.map toAltSets).length = st.length := List.length_map st toAltSets
  simp only [abStep, dget_eventRecord_n, dget_eventRecord_a, dget_eventRecord_i, JInt, asIndex,
    hlen, pyIndex_nat st.length e.alternative h]
  have hgetD : (st.map toAltSets).getD e.alternative ⟨∅, ∅⟩ =
      toAltSets (st.getD e.alternative (∅, ∅)) := getD_map toAltSets st e.alternative h _ _
  by_cases hA : e.action = aA
  · simp only [specStep, if_pos hA]
    rw [if_pos (by simp [JStr, hA])]
    rw [addAttempted_map]
  · rw [if_neg (by simp [JStr, hA])]
    by_cases hB : e.action = aB
    · rw [if_pos (by simp [JStr, hB])]
      rw [hgetD]
      by_cases hm : e.identity ∈ (st.getD e.alternative (∅, ∅)).1
      · rw [if_pos ((mem_toAltSets_attempted _ _).mpr hm)]
        simp only [specStep, if_neg hA, if_pos (And.intro hB hm)]
        rw [addCompleted_map]
      · rw [if_neg (fun hmem => hm ((mem_toAltSets_attempted _ _).mp hmem))]
        simp only [specStep, if_neg hA,
          if_neg (fun hand : e.action = aB ∧ _ => hm hand.2)]
    · rw [if_neg (by simp [JStr, hB])]
      simp only [specStep, if_neg hA, if_neg (fun hand : e.action = aB ∧ _ => hB hand.1)]

theorem abLoop_eventRecords (aA aB : String) (evs : List SpecEvent) :
    ∀ st : List (Finset String × Finset String),
      (∀ e ∈ evs, e.alternative < st.length) →
      abLoop aA aB (st.map toAltSets) (evs.map eventRecord) =
        Except.ok ((evs.foldl (specStep aA aB) st).map toAltSets) := by
  induction evs with
  | nil => intro st h; rfl
  | cons e es ih =>
      intro st h
      have he : e.alternative < st.length := h e (by simp)
      simp only [List.map_cons, abLoop, abStep_eventRecord aA aB st e he, List.foldl_cons]
      exact ih (specStep aA aB st e) fun x hx => by
        rw [specStep_length]
        exact h x (by simp [hx])

theorem abLoop_append (a b : String) (xs : List Record) :
    ∀ (ys : List Record) (st : List AltSets),
      abLoop a b st (xs ++ ys) =
        match abLoop a b st xs with
        | Except.ok st' => abLoop a b st' ys
        | Except.error e => Except.error e := by
  induction xs with
  | nil => intro ys st; rfl
  | cons d ds ih =>
      intro ys st
      simp only [List.cons_append, abLoop]
      cases abStep a b st d with
      | error e => rfl
      | ok st1 => exact ih ys st1

/-- C1: for a test with a definition, `ab_report` scans the result events
for the test name in file order and computes, per alternative, exactly the
attempted/completed identity sets described by the spec's funnel recurrence
(`specStep`/`specFunnel`: attempted on an `action_a` event; completed on an
`action_b` event only for an identity already attempted by a strictly
earlier event); the returned numbers are the cardinalities of those sets,
next to the test's name and alternatives list. -/
theorem C1_ab_report_funnel (s : FSState) (T aA aB : String) (tr : Record)
    (alts : List JPrim) (evs : List SpecEvent)
    (h1 : find_line s.tests [("t", JStr T)] = some tr)
    (h2 : dget tr "a" = some (JValue.arr alts))
    (h3 : s.results = some (evs.map fun e => some (eventRecord e)))
    (h4 : ∀ e ∈ evs, e.test_name = T → e.alternative < alts.length) :
    ab_report s T aA aB =
      Except.ok
        { test_name := T
          alternatives := alts
          results :=
            (specFunnel aA aB alts.length (evs.filter fun e => decide (e.test_name = T))).map
              fun p => ⟨p.1.card, p.2.card⟩ } := by
  have hscan : find_lines s.results [("t", JStr T)] =
      (evs.filter fun e => decide (e.test_name = T)).map eventRecord := by
    rw [h3]
    exact findLinesAux_eventRecords T evs
  have hinit : (alts.map fun _ => (⟨∅, ∅⟩ : AltSets)) =
      (List.replicate alts.length ((∅ : Finset String), (∅ : Finset String))).map toAltSets := by
    rw [List.map_replicate,
      map_const_of_mem (fun _ => (⟨∅, ∅⟩ : AltSets)) ⟨∅, ∅⟩ alts (fun x _ => rfl)]
    rfl
  have hflt : ∀ e ∈ evs.filter fun e => decide (e.test_name = T),
      e.alternative <
        (List.replicate alts.length ((∅ : Finset String), (∅ : Finset String))).length := by
    intro e he
    rw [List.length_replicate]
    rw [List.mem_filter] at he
    exact h4 e he.1 (by simpa using he.2)
  have hloop := abLoop_eventRecords aA aB (evs.filter fun e => decide (e.test_name = T))
      (List.replicate alts.length (∅, ∅)) hflt
  simp only [ab_report, h1, h2, hscan, hinit, hloop]
  congr 1
  simp [specFunnel, List.map_map, Function.comp, toAltSets, Finset.card_map]

/-- Witness for C1 at the spec's funnel counting scenario: alternative 0 has
attempted 1, completed 1 (u2's conversion without a prior shown is not
counted); alternative 1 has attempted 1, completed 0. -/
theorem C1_witness :
    ab_report exFunnelState "x" "shown" "converted" =
      Except.ok { test_name := "x", alternatives := exAlts, results := [⟨1, 1⟩, ⟨1, 0⟩] } := by
  have h := C1_ab_report_funnel exFunnelState "x" "shown" "converted"
    (testRecord "x" (JValue.arr exAlts)) exAlts exEvents rfl rfl rfl (by decide)
  exact h.trans (congrArg Except.ok (by decide))

theorem abStep_completed_invariant (a : String) (st : List AltSets) (d : Record)
    (st' : List AltSets) (h : abStep a a st d = Except.ok st') :
    st'.map (fun x => x.completed) = st.map (fun x => x.completed) := by
  unfold abStep at h
  split at h
  · exact Except.noConfusion h
  · split at h
    · exact Except.noConfusion h
    · split at h
      · exact Except.noConfusion h
      · split at h
        · exact Except.noConfusion h
        · split at h
          · split at h
            · exact Except.noConfusion h
            · rw [← Except.ok.inj h]
              simp only [addAttempted]
              apply map_modifyAt_invariant
              intro x
              rfl
          · rw [← Except.ok.inj h]

theorem abLoop_completed_invariant (a : String) (evs : List Record) :
    ∀ st st' : List AltSets, abLoop a a st evs = Except.ok st' →
      st'.map (fun x => x.completed) = st.map (fun x => x.completed) := by
  induction evs with
  | nil =>
      intro st st' h
      rw [← Except.ok.inj h]
  | cons d ds ih =>
      intro st st' h
      cases hstep : abStep a a st d with
      | error e =>
          simp only [abLoop, hstep] at h
          exact Except.noConfusion h
      | ok st1 =>
          simp only [abLoop, hstep] at h
          exact (ih st1 st' h).trans (abStep_completed_invariant a st d st1 hstep)

/-- C9: when the two action names coincide, `ab_report` reports
`completed = 0` for every alternative, whatever the log contains: an event
whose action equals `action_a` is always taken by the attempted branch, and
the completed branch is only reached when the action differs from
`action_a`. -/
theorem C9_equal_actions_completed_zero (s : FSState) (test_name a : String) (r : Report)
    (h : ab_report s test_name a a = Except.ok r) :
    r.results.map (fun c => c.completed) = List.replicate r.results.length 0 := by
  unfold ab_report at h
  split at h
  · exact Except.noConfusion h
  · split at h
    · exact Except.noConfusion h
    · exact Except.noConfusion h
    · split at h
      · exact Except.noConfusion h
      · rename_i alts halts xscrut final hloop
        rw [← Except.ok.inj h]
        have hfin := abLoop_completed_invariant a
          (find_lines s.results [("t", JStr test_name)])
          (alts.map fun _ => ⟨∅, ∅⟩) final hloop
        have hempty : ∀ x ∈ final, x.completed = ∅ := by
          intro x hx
          have hmem : x.completed ∈ final.map (fun y => y.completed) :=
            List.mem_map_of_mem _ hx
          rw [hfin, List.map_map] at hmem
          obtain ⟨b, _, hbe⟩ := List.mem_map.mp hmem
          exact hbe.symm
        show (final.map fun x => (⟨x.attempted.card, x.completed.card⟩ : AltCount)).map
            (fun c => c.completed) = _
        rw [List.map_map, List.length_map]
        exact map_const_of_mem _ 0 final fun x hx => by
          simp [Function.comp, hempty x hx]

/-- Witness for C9: on the funnel scenario's log, `ab_report("x", "shown",
"shown")` succeeds and every alternative reports `completed = 0`, even
though completions would be counted for a distinct pair of actions. -/
theorem C9_witness :
    ab_report exFunnelState "x" "shown" "shown" =
      Except.ok { test_name := "x", alternatives := exAlts, results := [⟨1, 0⟩, ⟨1, 0⟩] } ∧
    ([⟨1, 0⟩, ⟨1, 0⟩] : List AltCount).map (fun c => c.completed) =
      List.replicate ([(⟨1, 0⟩ : AltCount), ⟨1, 0⟩] : List AltCount).length 0 :=
  ⟨rfl, C9_equal_actions_completed_zero exFunnelState "x" "shown"
    { test_name := "x", alternatives := exAlts, results := [⟨1, 0⟩, ⟨1, 0⟩] } rfl⟩

/-- Counterexample to C8 as stated: the results log holds one event for test
`x` (alternatives `[A, B]`) whose alternative index is `-1` — out of the
claimed safe range `0 <= n < 2` — yet `ab_report` does not fail: Python list
indexing wraps negative indices, so the event is counted under the last
alternative (alternative 1, attempted = 1). -/
theorem C8_counterexample :
    ab_report negIndexState "x" "shown" "converted" =
      Except.ok { test_name := "x", alternatives := exAlts, results := [⟨0, 0⟩, ⟨1, 0⟩] } := rfl

/-- C8 (amended): `ab_report` indexes the per-alternative results list by
each scanned event's alternative field with no bounds check beyond Python
list indexing, so it is only safe when every scanned integer index `n`
satisfies `-len <= n < len`; an event for the test whose integer index falls
outside `[-len, len)` makes `ab_report` fail with the index error (it is not
skipped and not counted), while a negative in-range index is accepted and
counted toward alternative `len + n`. -/
theorem C8_out_of_range_index_fails (s : FSState) (T aA aB : String) (tr : Record)
    (alts : List JPrim) (evs1 : List SpecEvent) (bad : Record) (rest : List Line) (n0 : Int)
    (h1 : find_line s.tests [("t", JStr T)] = some tr)
    (h2 : dget tr "a" = some (JValue.arr alts))
    (h3 : s.results = some ((evs1.map fun e => some (eventRecord e)) ++ some bad :: rest))
    (h4 : ∀ e ∈ evs1, e.test_name = T → e.alternative < alts.length)
    (h5 : matchesPattern [("t", JStr T)] bad = true)
    (h6 : dget bad "n" = some (JInt n0))
    (h7 : pyIndex alts.length n0 = none) :
    ab_report s T aA aB = Except.error Err.indexError := by
  have hscan : find_lines s.results [("t", JStr T)] =
      ((evs1.filter fun e => decide (e.test_name = T)).map eventRecord) ++
        bad :: findLinesAux [("t", JStr T)] rest := by
    rw [h3]
    show findLinesAux _ _ = _
    rw [findLinesAux_append, findLinesAux_eventRecords]
    congr 1
    show findLinesAux _ (some bad :: rest) = _
    simp [findLinesAux, h5]
  have hinit : (alts.map fun _ => (⟨∅, ∅⟩ : AltSets)) =
      (List.replicate alts.length ((∅ : Finset String), (∅ : Finset String))).map toAltSets := by
    rw [List.map_replicate,
      map_const_of_mem (fun _ => (⟨∅, ∅⟩ : AltSets)) ⟨∅, ∅⟩ alts (fun x _ => rfl)]
    rfl
  have hflt : ∀ e ∈ evs1.filter fun e => decide (e.test_name = T),
      e.alternative <
        (List.replicate alts.length ((∅ : Finset String), (∅ : Finset String))).length := by
    intro e he
    rw [List.length_replicate]
    rw [List.mem_filter] at he
    exact h4 e he.1 (by simpa using he.2)
  have hloop := abLoop_eventRecords aA aB (evs1.filter fun e => decide (e.test_name = T))
      (List.replicate alts.length (∅, ∅)) hflt
  have hlen : ((evs1.filter fun e => decide (e.test_name = T)).foldl (specStep aA aB)
      (List.replicate alts.length (∅, ∅))).length = alts.length := by
    rw [foldl_specStep_length, List.length_replicate]
  have hstep : abStep aA aB
      (((evs1.filter fun e => decide (e.test_name = T)).foldl (specStep aA aB)
        (List.replicate alts.length (∅, ∅))).map toAltSets) bad =
      Except.error Err.indexError := by
    simp only [abStep, h6, JInt, asIndex, List.length_map, hlen, h7]
  simp only [ab_report, h1, h2, hscan, hinit, abLoop_append, hloop, abLoop, hstep]

/-- Witness for the amended C8: an event for test `x` (two alternatives)
with integer index `5`, outside `[-2, 2)`, makes `ab_report` fail with the
index error. -/
theorem C8_witness :
    ab_report bigIndexState "x" "shown" "converted" = Except.error Err.indexError :=
  C8_out_of_range_index_fails bigIndexState "x" "shown" "converted"
    (testRecord "x" (JValue.arr exAlts)) exAlts [] bigIndexRecord [] 5
    rfl rfl rfl (by decide) rfl rfl rfl

end Dabble
